import Mathlib

/-!
Verification of the PacketHandler core (`Pychat/lmchat/core/packethandler.py`)
against its natural-language specification.

The Python module is shallowly embedded below.  Conventions:

* Python `dict`s carrying JSON-like data are embedded as ordered association
  lists `List (String × Json)`; `dictGet` / `dictSet` mirror Python lookup and
  in-place update (first occurrence wins, insertion order preserved).
* Python strings are Lean `String`s, but every operation on them is
  implemented over `String.data` so that closed terms evaluate inside the
  kernel.  Case folding is modelled for ASCII (the only alphabet exercised by
  the repository).
* Ambient effects of the source (fresh packet ids from `_generate_id`, the
  wall clock, `json.loads`, `datetime.fromisoformat`, and the SHA-256
  hexdigest) are passed explicitly through an `Env` record.  The digest is a
  parameter `hash : String → String` applied to the canonical serialization
  and truncated to 16 characters, exactly where the source applies
  `hashlib.sha256(...).hexdigest()[:16]`.
* Machine integers are `Int`/`Nat`; Python `//` on non-negative lengths is
  `Nat` division.
-/

namespace PyTTAI

/-- JSON-like values exchanged as packet `content`/`metadata` payloads. -/
inductive Json where
  | null
  | bool (b : Bool)
  | int (n : Int)
  | str (s : String)
  | arr (xs : List Json)
  | obj (kvs : List (String × Json))

/-- Python `d.get(k)` on an ordered dict embedded as an association list. -/
def dictGet (d : List (String × Json)) (k : String) : Option Json :=
  match d with
  | [] => none
  | (k', v) :: rest => if k' = k then some v else dictGet rest k

/-- Python `d[k] = v`: replace in place if the key exists, else append. -/
def dictSet (d : List (String × Json)) (k : String) (v : Json) :
    List (String × Json) :=
  match d with
  | [] => [(k, v)]
  | (k', v') :: rest =>
      if k' = k then (k, v) :: rest else (k', v') :: dictSet rest k v

/-- Python `d.update(updates)`: apply `dictSet` for each pair in order. -/
def dictUpdate (d : List (String × Json)) (updates : List (String × Json)) :
    List (String × Json) :=
  updates.foldl (fun acc kv => dictSet acc kv.1 kv.2) d

/-- ASCII lower-casing of one character (models Python `str.lower` on the
ASCII alphabet actually used by the repository). -/
def charLower (c : Char) : Char :=
  if 'A' ≤ c ∧ c ≤ 'Z' then Char.ofNat (c.toNat + 32) else c

/-- `str.lower`, implemented over the character list so it evaluates in the
kernel. -/
def pyLower (s : String) : String := String.mk (s.data.map charLower)

/-- `s[:n]` for a Python string. -/
def strTake (s : String) (n : Nat) : String := String.mk (s.data.take n)

/-- `s[n:]` for a Python string. -/
def strDrop (s : String) (n : Nat) : String := String.mk (s.data.drop n)

/-- `len(s)` for a Python string. -/
def strLen (s : String) : Nat := s.data.length

/-- Code-point lexicographic comparison of character lists, as Python uses
for `str` comparison (and hence for tuple sort keys). -/
def lexLe : List Char → List Char → Bool
  | [], _ => true
  | _ :: _, [] => false
  | a :: as, b :: bs =>
      if a.toNat < b.toNat then true
      else if b.toNat < a.toNat then false
      else lexLe as bs

/-- Python `s1 <= s2` on strings. -/
def strLe (a b : String) : Bool := lexLe a.data b.data

/-- Minimal model of Python's JSON string escaping: the repository's data
never contains characters that `json.dumps` escapes beyond quotes and
backslashes, so only those two are handled. -/
def escapeChar (c : Char) : String :=
  if c = '"' then "\\\""
  else if c = '\\' then "\\\\"
  else String.mk [c]

def escapeStr (s : String) : String :=
  String.join (s.data.map escapeChar)

mutual

/-- `json.dumps(v)` with the default separators `", "` and `": "`. -/
def Json.dumps : Json → String
  | .null => "null"
  | .bool true => "true"
  | .bool false => "false"
  | .int n => toString n
  | .str s => "\"" ++ escapeStr s ++ "\""
  | .arr xs => "[" ++ Json.dumpsArr xs ++ "]"
  | .obj kvs => "\x7b" ++ Json.dumpsObj kvs ++ "\x7d"

def Json.dumpsArr : List Json → String
  | [] => ""
  | [x] => Json.dumps x
  | x :: y :: rest => Json.dumps x ++ ", " ++ Json.dumpsArr (y :: rest)

def Json.dumpsObj : List (String × Json) → String
  | [] => ""
  | [(k, v)] => "\"" ++ escapeStr k ++ "\": " ++ Json.dumps v
  | (k, v) :: kv :: rest =>
      "\"" ++ escapeStr k ++ "\": " ++ Json.dumps v ++ ", " ++
        Json.dumpsObj (kv :: rest)

end

/-- Insertion of one element into a sorted list, keeping it before the first
element it compares `le` to.  Together with `insertionSort` this is a stable
sort, and a stable sort under a fixed total preorder is unique, so this is
exactly the list Python's stable `sorted` produces.  (Structural recursion is
used so that closed terms evaluate inside the kernel.) -/
def orderedInsert {α : Type} (le : α → α → Bool) (a : α) : List α → List α
  | [] => [a]
  | b :: l => if le a b then a :: b :: l else b :: orderedInsert le a l

/-- Stable structural sort by a boolean comparison. -/
def insertionSort {α : Type} (le : α → α → Bool) : List α → List α
  | [] => []
  | a :: l => orderedInsert le a (insertionSort le l)

/-- Stable sort of object entries by key, as `json.dumps(..., sort_keys=True)`
performs at every nesting level. -/
def sortByKey (kvs : List (String × Json)) : List (String × Json) :=
  insertionSort (fun a b => strLe a.1 b.1) kvs

mutual

/-- Recursively sort the keys of every object, so that
`json.dumps(v, sort_keys=True)` is `Json.dumps (Json.sortKeys v)`. -/
def Json.sortKeys : Json → Json
  | .null => .null
  | .bool b => .bool b
  | .int n => .int n
  | .str s => .str s
  | .arr xs => .arr (Json.sortKeysArr xs)
  | .obj kvs => .obj (sortByKey (Json.sortKeysObj kvs))

def Json.sortKeysArr : List Json → List Json
  | [] => []
  | x :: rest => Json.sortKeys x :: Json.sortKeysArr rest

def Json.sortKeysObj : List (String × Json) → List (String × Json)
  | [] => []
  | (k, v) :: rest => (k, Json.sortKeys v) :: Json.sortKeysObj rest

end

/-- `json.dumps(v, sort_keys=True)`. -/
def Json.dumpsSorted (v : Json) : String := Json.dumps (Json.sortKeys v)

mutual

/-- Python `str(v)` for a JSON-like value (used by `_extract_key_points`):
strings render bare, containers render via `repr`. -/
def pyStr : Json → String
  | .str s => s
  | v => pyRepr v

/-- Python `repr(v)` for a JSON-like value: strings single-quoted,
`True`/`False`/`None` capitalised. -/
def pyRepr : Json → String
  | .null => "None"
  | .bool true => "True"
  | .bool false => "False"
  | .int n => toString n
  | .str s => "'" ++ s ++ "'"
  | .arr xs => "[" ++ pyReprArr xs ++ "]"
  | .obj kvs => "\x7b" ++ pyReprObj kvs ++ "\x7d"

def pyReprArr : List Json → String
  | [] => ""
  | [x] => pyRepr x
  | x :: y :: rest => pyRepr x ++ ", " ++ pyReprArr (y :: rest)

def pyReprObj : List (String × Json) → String
  | [] => ""
  | [(k, v)] => "'" ++ k ++ "': " ++ pyRepr v
  | (k, v) :: kv :: rest =>
      "'" ++ k ++ "': " ++ pyRepr v ++ ", " ++ pyReprObj (kv :: rest)

end

/-- `PacketType` enumeration. -/
inductive PacketType where
  | identity
  | session
  | context
  | handover
  | sync
  | checkpoint
deriving DecidableEq

/-- The `.value` string of each `PacketType` member. -/
def PacketType.value : PacketType → String
  | .identity => "identity"
  | .session => "session"
  | .context => "context"
  | .handover => "handover"
  | .sync => "sync"
  | .checkpoint => "checkpoint"

/-- `PacketType(tag)`: `none` models the `ValueError` on unknown tags. -/
def PacketType.ofString? (s : String) : Option PacketType :=
  if s = "identity" then some .identity
  else if s = "session" then some .session
  else if s = "context" then some .context
  else if s = "handover" then some .handover
  else if s = "sync" then some .sync
  else if s = "checkpoint" then some .checkpoint
  else none

/-- `PacketPriority` enumeration. -/
inductive PacketPriority where
  | critical
  | high
  | medium
  | low
deriving DecidableEq

/-- The numeric `.value` of each `PacketPriority` member. -/
def PacketPriority.value : PacketPriority → Int
  | .critical => 1
  | .high => 2
  | .medium => 3
  | .low => 4

/-- `PacketPriority(n)`: `none` models the `ValueError` on unknown values. -/
def PacketPriority.ofInt? (n : Int) : Option PacketPriority :=
  if n = 1 then some .critical
  else if n = 2 then some .high
  else if n = 3 then some .medium
  else if n = 4 then some .low
  else none

/-- Normalised consent record: the constructor guarantees exactly these four
fields, defaulted as in `ConsciousnessPacket.__init__`. -/
structure Consent where
  «public» : Bool
  targets : List String
  scopes : List String
  expires_at : Option String
deriving DecidableEq

/-- Consent as it appears on the wire: each field optional, `consent.get`
supplying the defaults.  `expires_at = none` covers both an absent key and an
explicit `null`, which `consent.get("expires_at")` cannot distinguish. -/
structure ConsentDict where
  «public» : Option Bool := none
  targets : Option (List String) := none
  scopes : Option (List String) := none
  expires_at : Option String := none

/-- `ConsciousnessPacket` after construction. -/
structure ConsciousnessPacket where
  id : String
  type : PacketType
  priority : PacketPriority
  content : List (String × Json)
  metadata : List (String × Json)
  consent : Consent

namespace ConsciousnessPacket

/-- `_estimate_tokens`: `len(json.dumps(content)) // 4`. -/
def _estimate_tokens (content : List (String × Json)) : Nat :=
  strLen (Json.dumps (.obj content)) / 4

/-- `_calculate_checksum`: SHA-256 hexdigest (the `hash` parameter) of the
key-sorted serialization, truncated to 16 characters. -/
def _calculate_checksum (hash : String → String) (content : List (String × Json)) :
    String :=
  strTake (hash (Json.dumpsSorted (.obj content))) 16

/-- `ConsciousnessPacket.__init__`.  `freshId` stands for `_generate_id()`
and `nowIso` for `_now_iso()`; both are ambient effects in the source.
Note the unconditional `metadata.update` that overwrites `created`,
`version`, `token_count` and `checksum` on whatever metadata was passed in. -/
def init (hash : String → String) (freshId nowIso : String)
    (packet_type : PacketType) (content : List (String × Json))
    (priority : PacketPriority)
    (metadata : Option (List (String × Json)))
    (consent : Option ConsentDict) : ConsciousnessPacket :=
  let consent' : Consent :=
    match consent with
    | none => ⟨false, [], ["read"], none⟩
    | some c => ⟨c.public.getD false, c.targets.getD [], c.scopes.getD ["read"],
        c.expires_at⟩
  let md := dictUpdate (metadata.getD [])
    [("created", .str nowIso),
     ("version", .str "2.3.0"),
     ("token_count", .int (_estimate_tokens content)),
     ("checksum", .str (_calculate_checksum hash content))]
  { id := freshId, type := packet_type, priority := priority,
    content := content, metadata := md, consent := consent' }

end ConsciousnessPacket

/-- The wire form of a packet (the dictionary handled by `to_dict` /
`from_dict`).  Header fields are optional: a missing key raises `KeyError`
inside the `try` of `from_dict`, which is folded into the same
`PacketError` as an unrecognized tag.  (`content` is read outside that
`try`; every claim concerns packets that do carry a content mapping, so it
is embedded as a plain field.) -/
structure PacketDict where
  id : Option String
  type : Option String
  priority : Option Int
  consent : Option ConsentDict
  content : List (String × Json)
  metadata : Option (List (String × Json))

/-- The error taxonomy of the module: `PacketError` raised for invalid JSON,
unsupported input type, or a bad header; `IntegrityError` and `ConsentError`
are its subclasses raised in `receive_packet`; the size check in
`create_packet` raises `PacketError` as well. -/
inductive PErr where
  | invalidJson
  | unsupportedFormat
  | invalidHeader
  | sizeExceeded
  | integrity
  | consentExpired
deriving DecidableEq

namespace ConsciousnessPacket

/-- `to_dict`: serialize the packet to its wire dictionary. -/
def to_dict (p : ConsciousnessPacket) : PacketDict :=
  { id := some p.id,
    type := some p.type.value,
    priority := some p.priority.value,
    consent := some ⟨some p.consent.public, some p.consent.targets,
      some p.consent.scopes, p.consent.expires_at⟩,
    content := p.content,
    metadata := some p.metadata }

/-- `from_dict`: validate the `type`/`priority` tags, rebuild the packet
through the constructor (which refreshes `created`, `version`,
`token_count`, `checksum`), then restore the original id when present. -/
def from_dict (hash : String → String) (freshId nowIso : String)
    (data : PacketDict) : Except PErr ConsciousnessPacket :=
  match data.type.bind PacketType.ofString?, data.priority.bind PacketPriority.ofInt? with
  | some packet_type, some priority =>
      let packet := init hash freshId nowIso packet_type data.content priority
        data.metadata data.consent
      .ok { packet with id := data.id.getD packet.id }
  | _, _ => .error .invalidHeader

/-- `verify_integrity`: compare the stored checksum with a digest recomputed
over the current content.  A missing or non-string stored checksum compares
unequal to the recomputed hex string, as in Python. -/
def verify_integrity (hash : String → String) (p : ConsciousnessPacket) : Bool :=
  match dictGet p.metadata "checksum" with
  | some (.str expected) => expected == _calculate_checksum hash p.content
  | _ => false

/-- `is_expired`: `False` on a falsy `expires_at` (absent, `null`, or the
empty string), `False` when `datetime.fromisoformat` fails (the `parseTs`
parameter returning `none`), else strict comparison against the current
time. -/
def is_expired (parseTs : String → Option Int) (nowT : Int)
    (p : ConsciousnessPacket) : Bool :=
  match p.consent.expires_at with
  | none => false
  | some s =>
      if s = "" then false
      else
        match parseTs s with
        | none => false
        | some expiry => decide (expiry < nowT)

end ConsciousnessPacket

/-- Ambient effects of one call into the module: fresh ids from
`_generate_id` (`freshId2` for the second construction inside
`_compress_packet`), the wall clock in ISO form and as a comparable instant,
`datetime.fromisoformat` (`none` = `ValueError`), `json.loads` (`none` =
`JSONDecodeError`), and the SHA-256 hexdigest. -/
structure Env where
  freshId : String
  freshId2 : String
  nowIso : String
  nowIso2 : String
  nowT : Int
  parseTs : String → Option Int
  loads : String → Option PacketDict
  hash : String → String

/-- `PacketHandler.MAX_BUFFER_SIZE`. -/
def MAX_BUFFER_SIZE : Nat := 200

/-- The in-memory state of a `PacketHandler` instance (the storage path and
index file are filesystem I/O outside this model). -/
structure PacketHandler where
  max_packet_size : Nat
  compression_threshold : Nat
  incoming_buffer : List ConsciousnessPacket
  outgoing_buffer : List ConsciousnessPacket
  identity_layer : Option ConsciousnessPacket
  context_layers : List ConsciousnessPacket
  session_memory : List ConsciousnessPacket

/-- `PacketHandler.__init__`: empty buffers and tiers. -/
def PacketHandler.mkHandler (max_packet_size compression_threshold : Nat) :
    PacketHandler :=
  ⟨max_packet_size, compression_threshold, [], [], none, [], []⟩

/-- A handler with the default limits (8000 / 4000 tokens). -/
def initHandler : PacketHandler := PacketHandler.mkHandler 8000 4000

/-- Python `l[-n:]` for the positive capacities used by the handler. -/
def lastN {α : Type} (n : Nat) (l : List α) : List α :=
  (l.reverse.take n).reverse

namespace PacketHandler

/-- `_prune_buffers`: slice each buffer to its last `MAX_BUFFER_SIZE`
entries, but only when strictly over the limit. -/
def _prune_buffers (h : PacketHandler) : PacketHandler :=
  { h with
    incoming_buffer :=
      if MAX_BUFFER_SIZE < h.incoming_buffer.length then
        lastN MAX_BUFFER_SIZE h.incoming_buffer
      else h.incoming_buffer,
    outgoing_buffer :=
      if MAX_BUFFER_SIZE < h.outgoing_buffer.length then
        lastN MAX_BUFFER_SIZE h.outgoing_buffer
      else h.outgoing_buffer }

/-- `_route_packet`: identity replaces, session/context append then truncate
to capacity, all other types are not routed into a tier. -/
def _route_packet (h : PacketHandler) (p : ConsciousnessPacket) : PacketHandler :=
  if p.type = .identity then
    { h with identity_layer := some p }
  else if p.type = .session then
    let sm := h.session_memory ++ [p]
    { h with session_memory := if 10 < sm.length then lastN 10 sm else sm }
  else if p.type = .context then
    let cl := h.context_layers ++ [p]
    { h with context_layers := if 20 < cl.length then lastN 20 cl else cl }
  else h

end PacketHandler

/-- The three shapes `receive_packet` accepts: serialized text, a parsed
dictionary, or anything else (rejected as an unsupported format). -/
inductive RecvInput where
  | text (s : String)
  | dict (d : PacketDict)
  | other

namespace PacketHandler

/-- `receive_packet`: parse, rebuild via `from_dict`, verify integrity,
check expiry, then append to the incoming buffer, prune, and route.  The
result pairs the handler state after the call (unchanged on every failure,
since all raises occur before the first mutation) with the outcome. -/
def receive_packet (env : Env) (h : PacketHandler) (packet_data : RecvInput) :
    PacketHandler × Except PErr ConsciousnessPacket :=
  let parsed : Except PErr PacketDict :=
    match packet_data with
    | .text s =>
        match env.loads s with
        | none => .error .invalidJson
        | some d => .ok d
    | .dict d => .ok d
    | .other => .error .unsupportedFormat
  match parsed with
  | .error e => (h, .error e)
  | .ok packet_dict =>
      match ConsciousnessPacket.from_dict env.hash env.freshId env.nowIso packet_dict with
      | .error e => (h, .error e)
      | .ok packet =>
          if ConsciousnessPacket.verify_integrity env.hash packet = false then
            (h, .error .integrity)
          else if ConsciousnessPacket.is_expired env.parseTs env.nowT packet then
            (h, .error .consentExpired)
          else
            let h1 := { h with incoming_buffer := h.incoming_buffer ++ [packet] }
            let h2 := _prune_buffers h1
            let h3 := _route_packet h2 packet
            (h3, .ok packet)

/-- `emit_packet`: append to the outgoing buffer and prune.  The durable
write (`_persist_packet`) touches only the filesystem, and the serialized
return value is not needed by any claim, so only the state effect is
modelled. -/
def emit_packet (h : PacketHandler) (p : ConsciousnessPacket) : PacketHandler :=
  _prune_buffers { h with outgoing_buffer := h.outgoing_buffer ++ [p] }

end PacketHandler

/-- `metadata.get("created", "")`, as used by the selection sort key. -/
def createdOf (p : ConsciousnessPacket) : String :=
  match dictGet p.metadata "created" with
  | some (.str s) => s
  | _ => ""

/-- `metadata.get("token_count", 0)`.  The constructor always writes
`token_count` as the non-negative `len // 4` estimate, so the count is a
`Nat`. -/
def tokenCountOf (p : ConsciousnessPacket) : Nat :=
  match dictGet p.metadata "token_count" with
  | some (.int n) => n.toNat
  | _ => 0

namespace PacketHandler

/-- `priority_map` in `create_packet`: the default priority per type. -/
def priority_map : PacketType → PacketPriority
  | .identity => .critical
  | .handover => .high
  | .session => .medium
  | .context => .medium
  | .sync => .low
  | .checkpoint => .high

/-- First 200 characters of the serialized content, with an ellipsis when
truncated (`_summarize_content`). -/
def _summarize_content (content : List (String × Json)) : String :=
  let text := Json.dumps (.obj content)
  if 200 < strLen text then strTake text 200 ++ "..." else text

/-- `_extract_key_points`: up to five `"key: truncated-str(value)"` lines. -/
def _extract_key_points (content : List (String × Json)) : List String :=
  let keys := (content.map Prod.fst).take 5
  keys.map (fun k => k ++ ": " ++ strTake (pyStr ((dictGet content k).getD .null)) 50)

/-- `_compress_packet`: wrap the content in a summary record carrying the
original id, checksum and size, rebuild through the constructor with a copy
of the metadata, then stamp `compressed` and `original_checksum` onto the
metadata.  (`packet.metadata["checksum"]` / `["token_count"]` always exist:
the constructor wrote them.) -/
def _compress_packet (env : Env) (packet : ConsciousnessPacket) :
    ConsciousnessPacket :=
  let compressed_content : List (String × Json) :=
    [("compressed", .bool true),
     ("original_id", .str packet.id),
     ("original_checksum", (dictGet packet.metadata "checksum").getD .null),
     ("original_size", (dictGet packet.metadata "token_count").getD .null),
     ("summary", .str (_summarize_content packet.content)),
     ("key_points", .arr ((_extract_key_points packet.content).map Json.str))]
  let consentDict : ConsentDict :=
    ⟨some packet.consent.public, some packet.consent.targets,
      some packet.consent.scopes, packet.consent.expires_at⟩
  let cp := ConsciousnessPacket.init env.hash env.freshId2 env.nowIso2
    packet.type compressed_content packet.priority (some packet.metadata)
    (some consentDict)
  { cp with
    metadata :=
      dictSet (dictSet cp.metadata "compressed" (.bool true))
        "original_checksum" ((dictGet packet.metadata "checksum").getD .null) }

/-- `create_packet`: default the priority from the type, construct, reject
contents over `max_packet_size` tokens, compress above
`compression_threshold`. -/
def create_packet (env : Env) (h : PacketHandler) (packet_type : PacketType)
    (content : List (String × Json)) (priority : Option PacketPriority)
    (consent : Option ConsentDict) : Except PErr ConsciousnessPacket :=
  let priority := priority.getD (priority_map packet_type)
  let packet := ConsciousnessPacket.init env.hash env.freshId env.nowIso
    packet_type content priority none consent
  if h.max_packet_size < tokenCountOf packet then .error .sizeExceeded
  else if h.compression_threshold < tokenCountOf packet then
    .ok (_compress_packet env packet)
  else .ok packet

/-- The scope test shared by every `return` site of `can_share_with`:
`if scope: return scope in scopes; return True`.  An absent or empty scope
is falsy and grants access. -/
def scope_allows (p : ConsciousnessPacket) (scope : Option String) : Bool :=
  match scope with
  | none => true
  | some s => if s = "" then true else p.consent.scopes.contains s

/-- The `for target in packet.consent["targets"]` loop of `can_share_with`:
split at the first colon when present, compare the lowered recipient with
either half, first match returns the scope test. -/
def scan_targets (p : ConsciousnessPacket) (recipient_lower : String)
    (scope : Option String) : List String → Bool
  | [] => false
  | target :: rest =>
      if target.data.contains ':' then
        let target_name := String.mk (target.data.takeWhile (fun c => c != ':'))
        let target_id := strDrop target (strLen target_name + 1)
        if recipient_lower == pyLower target_name ||
            recipient_lower == pyLower target_id then
          scope_allows p scope
        else scan_targets p recipient_lower scope rest
      else
        if recipient_lower == pyLower target then scope_allows p scope
        else scan_targets p recipient_lower scope rest

/-- `can_share_with`: expiry first, then the public short-circuit, then the
target scan. -/
def can_share_with (parseTs : String → Option Int) (nowT : Int)
    (p : ConsciousnessPacket) (recipient : String) (scope : Option String) :
    Bool :=
  if ConsciousnessPacket.is_expired parseTs nowT p then false
  else if p.consent.public then scope_allows p scope
  else scan_targets p (pyLower recipient) scope p.consent.targets

/-- `type_label` assignment inside `_select_packets_by_priority`. -/
def type_label (p : ConsciousnessPacket) : String :=
  if p.type = .session then "session"
  else if p.type = .context then "context"
  else p.type.value

/-- The sort key comparison `(x.priority.value, x.metadata.get("created", ""))`
used by `sorted` (a total preorder; `sorted` is stable, as is
`insertionSort`). -/
def selLe (a b : ConsciousnessPacket) : Bool :=
  decide (a.priority.value < b.priority.value) ||
    (decide (a.priority.value = b.priority.value) &&
      strLe (createdOf a) (createdOf b))

/-- The greedy walk of `_select_packets_by_priority`: take a packet when it
fits the remaining budget, stop once the remaining budget drops under 100. -/
def select_loop : List ConsciousnessPacket → Nat →
    List (String × ConsciousnessPacket)
  | [], _ => []
  | packet :: rest, budget =>
      let tokens := tokenCountOf packet
      if tokens ≤ budget then
        let budget' := budget - tokens
        (type_label packet, packet) ::
          (if budget' < 100 then [] else select_loop rest budget')
      else if budget < 100 then [] else select_loop rest budget

/-- `_select_packets_by_priority`: stable sort by `(priority, created)` then
the greedy budget walk. -/
def _select_packets_by_priority (pool : List ConsciousnessPacket)
    (budget : Nat) : List (String × ConsciousnessPacket) :=
  select_loop (insertionSort selLe pool) budget

end PacketHandler

/-- One `layers` entry of the reconstructed context. -/
structure ContextLayer where
  type : String
  content : List (String × Json)
  tokens : Nat

/-- The dictionary returned by `reconstruct_context`. -/
structure ContextSnapshot where
  timestamp : String
  layers : List ContextLayer
  handler_version : String
  total_tokens : Nat
  remaining_tokens : Nat

namespace PacketHandler

/-- `reconstruct_context`: include the identity layer first when it fits,
then the priority/budget selection over `session_memory ++ context_layers`.
The sequential `remaining_tokens -= tokens` of the source equals subtracting
the sum (truncated `Nat` subtraction is associative, and the selection never
overruns the budget). -/
def reconstruct_context (h : PacketHandler) (nowIso : String)
    (token_budget : Nat) (include_identity : Bool) : ContextSnapshot :=
  let idSel : List ContextLayer × Nat :=
    match include_identity, h.identity_layer with
    | true, some idp =>
        let identity_tokens := tokenCountOf idp
        if identity_tokens ≤ token_budget then
          ([⟨"identity", idp.content, identity_tokens⟩],
            token_budget - identity_tokens)
        else ([], token_budget)
    | _, _ => ([], token_budget)
  let all_packets := h.session_memory ++ h.context_layers
  let selected := _select_packets_by_priority all_packets idSel.2
  let layers := idSel.1 ++
    selected.map (fun tp => (⟨tp.1, tp.2.content, tokenCountOf tp.2⟩ : ContextLayer))
  let remaining := idSel.2 - (selected.map (fun tp => tokenCountOf tp.2)).sum
  ⟨nowIso, layers, "2.3.0", token_budget - remaining, remaining⟩

end PacketHandler

/-! ### Specification-side definitions and concrete instances used below -/

/-- A fixed environment for concrete evaluations: identity digest, a clock at
instant 100, a timestamp format in which only `"2020"` parses (to instant
50). -/
def parseTs0 : String → Option Int := fun s => if s = "2020" then some 50 else none

def env0 : Env :=
  ⟨"cp_1", "cp_2", "2025-01-01T00:00:00+00:00", "2025-01-01T00:00:01+00:00",
    100, parseTs0, fun _ => none, fun s => s⟩

/-- A syntactically valid packet dictionary whose stored checksum cannot be a
digest of its content. -/
def cx1_dict : PacketDict :=
  ⟨some "evil", some "context", some 3, none, [("x", .null)],
    some [("checksum", .str "tampered")]⟩

/-- Wire data carrying stale metadata, for exercising `from_dict`. -/
def cw_data : PacketDict :=
  ⟨some "pid", some "session", some 2, none, [("k", .str "v")],
    some [("checksum", .str "old"), ("created", .str "OLD")]⟩

/-- The packet `from_dict` rebuilds from `cw_data` (with the identity digest,
fresh id `"fid"`, clock `"NOW"`). -/
def cw_q : ConsciousnessPacket :=
  { ConsciousnessPacket.init (fun s => s) "fid" "NOW" .session cw_data.content
      .high cw_data.metadata cw_data.consent with id := "pid" }

/-- A packet whose consent expires at `"2020"`. -/
def cw9 : ConsciousnessPacket :=
  ConsciousnessPacket.init (fun s => s) "i" "t" .context [] .medium none
    (some ⟨none, none, none, some "2020"⟩)

/-- A public packet with the default `read` scope. -/
def cx4_public : ConsciousnessPacket :=
  ConsciousnessPacket.init (fun s => s) "i" "t" .context [] .medium none
    (some ⟨some true, none, some ["read"], none⟩)

/-- One target entry matching the recipient, as the specification phrases it:
case-insensitive, against a bare name or either half of a `name:id` entry. -/
def target_matches (recipient : String) (target : String) : Bool :=
  if target.data.contains ':' then
    let target_name := String.mk (target.data.takeWhile (fun c => c != ':'))
    let target_id := strDrop target (strLen target_name + 1)
    pyLower recipient == pyLower target_name ||
      pyLower recipient == pyLower target_id
  else pyLower recipient == pyLower target

/-- Claim C4 exactly as stated: expired consent refuses; a public packet
grants when no scope is given and otherwise tests membership of the scope;
otherwise the first matching target decides with the same scope test, no
match refuses.  ("No scope is given" is read as the argument being absent.) -/
def can_share_spec (parseTs : String → Option Int) (nowT : Int)
    (p : ConsciousnessPacket) (recipient : String) (scope : Option String) :
    Bool :=
  if ConsciousnessPacket.is_expired parseTs nowT p then false
  else
    let scope_ok : Bool :=
      match scope with
      | none => true
      | some s => p.consent.scopes.contains s
    if p.consent.public then scope_ok
    else
      match p.consent.targets.find? (target_matches recipient) with
      | some _ => scope_ok
      | none => false

/-- Claim C4 amended as the code forces: an *empty* scope string is treated
like an absent scope (Python truthiness of `if scope:`); everything else is
as the claim states. -/
def can_share_amended (parseTs : String → Option Int) (nowT : Int)
    (p : ConsciousnessPacket) (recipient : String) (scope : Option String) :
    Bool :=
  if ConsciousnessPacket.is_expired parseTs nowT p then false
  else
    let scope_ok : Bool :=
      match scope with
      | none => true
      | some s => if s = "" then true else p.consent.scopes.contains s
    if p.consent.public then scope_ok
    else
      match p.consent.targets.find? (target_matches recipient) with
      | some _ => scope_ok
      | none => false

/-- The key `_select_packets_by_priority` sorts by. -/
def selKeyOf (p : ConsciousnessPacket) : Int × String :=
  (p.priority.value, createdOf p)

/-- Non-decreasing order on sort keys: smaller priority value first, the
`created` timestamp breaking ties. -/
def keyLe (a b : Int × String) : Prop :=
  a.1 < b.1 ∨ (a.1 = b.1 ∧ strLe a.2 b.2 = true)

instance keyLe.decidable (a b : Int × String) : Decidable (keyLe a b) := by
  unfold keyLe
  exact inferInstance

/-- The packets whose contents `reconstruct_context` returns, in order: the
identity packet when included and fitting the budget, then the selection
over `session_memory ++ context_layers`. -/
def reconstruct_context_packets (h : PacketHandler) (token_budget : Nat)
    (include_identity : Bool) : List ConsciousnessPacket :=
  let idSel : List ConsciousnessPacket × Nat :=
    match include_identity, h.identity_layer with
    | true, some idp =>
        if tokenCountOf idp ≤ token_budget then
          ([idp], token_budget - tokenCountOf idp)
        else ([], token_budget)
    | _, _ => ([], token_budget)
  idSel.1 ++ (PacketHandler._select_packets_by_priority
    (h.session_memory ++ h.context_layers) idSel.2).map Prod.snd

/-- Claim C3 as stated, at one store and budget: layers within budget, and
*all* returned layers (the identity layer included) in non-decreasing
`(priority, created)` order. -/
def C3Claim (h : PacketHandler) (nowIso : String) (B : Nat) : Prop :=
  (((PacketHandler.reconstruct_context h nowIso B true).layers.map
      ContextLayer.tokens).sum ≤ B) ∧
  List.Pairwise keyLe ((reconstruct_context_packets h B true).map selKeyOf)

/-- An identity packet of LOW priority (receive routes by type, not by
priority, so such a store state is reachable). -/
def cx3_identity : ConsciousnessPacket :=
  ConsciousnessPacket.init (fun s => s) "id_a" "2025-01-01T00:00:00" .identity
    [("who", .str "a")] .low none none

/-- A session packet of CRITICAL priority. -/
def cx3_session : ConsciousnessPacket :=
  ConsciousnessPacket.init (fun s => s) "id_b" "2025-01-01T00:00:01" .session
    [("note", .str "b")] .critical none none

def cx3_handler : PacketHandler :=
  { initHandler with
    identity_layer := some cx3_identity,
    session_memory := [cx3_session] }

/-- The store-independent validation pipeline at the head of
`receive_packet` (parsing, `from_dict`, integrity, expiry). -/
def validate_packet (env : Env) (packet_data : RecvInput) :
    Except PErr ConsciousnessPacket :=
  let parsed : Except PErr PacketDict :=
    match packet_data with
    | .text s =>
        match env.loads s with
        | none => .error .invalidJson
        | some d => .ok d
    | .dict d => .ok d
    | .other => .error .unsupportedFormat
  match parsed with
  | .error e => .error e
  | .ok packet_dict =>
      match ConsciousnessPacket.from_dict env.hash env.freshId env.nowIso packet_dict with
      | .error e => .error e
      | .ok packet =>
          if ConsciousnessPacket.verify_integrity env.hash packet = false then
            .error .integrity
          else if ConsciousnessPacket.is_expired env.parseTs env.nowT packet then
            .error .consentExpired
          else .ok packet

/-- One call into the handler: a receive (with its ambient effects) or an
emit. -/
inductive Op where
  | recv (env : Env) (input : RecvInput)
  | emit (p : ConsciousnessPacket)

def runOp (h : PacketHandler) : Op → PacketHandler
  | .recv env input => (PacketHandler.receive_packet env h input).1
  | .emit p => PacketHandler.emit_packet h p

/-- Run a sequence of receive/emit calls from a given state. -/
def run (h : PacketHandler) (ops : List Op) : PacketHandler :=
  ops.foldl runOp h

/-- The packets successfully received along a call sequence (validation does
not depend on the handler state). -/
def receivedOf (ops : List Op) : List ConsciousnessPacket :=
  ops.filterMap (fun op =>
    match op with
    | .recv env input => (validate_packet env input).toOption
    | .emit _ => none)

/-- The packets emitted along a call sequence. -/
def emittedOf (ops : List Op) : List ConsciousnessPacket :=
  ops.filterMap (fun op =>
    match op with
    | .recv _ _ => none
    | .emit p => some p)

/-- The buffer/tier contents determined by the receive and emit histories. -/
def BuffersSpec (h : PacketHandler) (rcv emt : List ConsciousnessPacket) :
    Prop :=
  h.incoming_buffer = lastN 200 rcv ∧
  h.outgoing_buffer = lastN 200 emt ∧
  h.session_memory = lastN 10 (rcv.filter (fun p => decide (p.type = .session))) ∧
  h.context_layers = lastN 20 (rcv.filter (fun p => decide (p.type = .context))) ∧
  h.identity_layer = (rcv.filter (fun p => decide (p.type = .identity))).getLast?

/-- Content whose estimate (3 tokens) crosses a threshold of 2. -/
def cw8_content : List (String × Json) := [("a", .str "hello")]

/-! ### Basic lemmas about the embedded dictionary operations -/

theorem dictGet_dictSet_self (d : List (String × Json)) (k : String) (v : Json) :
    dictGet (dictSet d k v) k = some v := by
  induction d with
  | nil => simp [dictSet, dictGet]
  | cons kv rest ih =>
      obtain ⟨k', v'⟩ := kv
      by_cases hk : k' = k
      · simp [dictSet, dictGet, hk]
      · simp [dictSet, dictGet, hk, ih]

theorem dictGet_dictSet_ne (d : List (String × Json)) {k k' : String} (v : Json)
    (h : k' ≠ k) : dictGet (dictSet d k v) k' = dictGet d k' := by
  induction d with
  | nil =>
      have h1 : ¬ k = k' := fun hh => h hh.symm
      simp [dictSet, dictGet, h1]
  | cons kv rest ih =>
      obtain ⟨k₀, v₀⟩ := kv
      by_cases hk : k₀ = k
      · subst hk
        have h1 : ¬ k₀ = k' := fun hh => h hh.symm
        simp [dictSet, dictGet, h1]
      · simp [dictSet, dictGet, hk, ih]

/-! ### The metadata written by the constructor -/

namespace ConsciousnessPacket

theorem init_metadata (hash : String → String) (freshId nowIso : String)
    (t : PacketType) (c : List (String × Json)) (pr : PacketPriority)
    (md : Option (List (String × Json))) (cs : Option ConsentDict) :
    (init hash freshId nowIso t c pr md cs).metadata =
      dictSet (dictSet (dictSet (dictSet (md.getD []) "created" (.str nowIso))
        "version" (.str "2.3.0")) "token_count" (.int (_estimate_tokens c)))
        "checksum" (.str (_calculate_checksum hash c)) := by
  cases cs <;> rfl

theorem init_meta_checksum (hash : String → String) (freshId nowIso : String)
    (t : PacketType) (c : List (String × Json)) (pr : PacketPriority)
    (md : Option (List (String × Json))) (cs : Option ConsentDict) :
    dictGet (init hash freshId nowIso t c pr md cs).metadata "checksum" =
      some (.str (_calculate_checksum hash c)) := by
  rw [init_metadata, dictGet_dictSet_self]

theorem init_meta_token_count (hash : String → String) (freshId nowIso : String)
    (t : PacketType) (c : List (String × Json)) (pr : PacketPriority)
    (md : Option (List (String × Json))) (cs : Option ConsentDict) :
    dictGet (init hash freshId nowIso t c pr md cs).metadata "token_count" =
      some (.int (_estimate_tokens c)) := by
  rw [init_metadata, dictGet_dictSet_ne _ _ (by decide), dictGet_dictSet_self]

theorem init_meta_created (hash : String → String) (freshId nowIso : String)
    (t : PacketType) (c : List (String × Json)) (pr : PacketPriority)
    (md : Option (List (String × Json))) (cs : Option ConsentDict) :
    dictGet (init hash freshId nowIso t c pr md cs).metadata "created" =
      some (.str nowIso) := by
  rw [init_metadata, dictGet_dictSet_ne _ _ (by decide),
    dictGet_dictSet_ne _ _ (by decide), dictGet_dictSet_ne _ _ (by decide),
    dictGet_dictSet_self]

theorem init_meta_version (hash : String → String) (freshId nowIso : String)
    (t : PacketType) (c : List (String × Json)) (pr : PacketPriority)
    (md : Option (List (String × Json))) (cs : Option ConsentDict) :
    dictGet (init hash freshId nowIso t c pr md cs).metadata "version" =
      some (.str "2.3.0") := by
  rw [init_metadata, dictGet_dictSet_ne _ _ (by decide),
    dictGet_dictSet_ne _ _ (by decide), dictGet_dictSet_self]

theorem init_verify (hash : String → String) (freshId nowIso : String)
    (t : PacketType) (c : List (String × Json)) (pr : PacketPriority)
    (md : Option (List (String × Json))) (cs : Option ConsentDict) :
    verify_integrity hash (init hash freshId nowIso t c pr md cs) = true := by
  have hc : (init hash freshId nowIso t c pr md cs).content = c := by
    cases cs <;> rfl
  rw [verify_integrity, init_meta_checksum, hc]
  simp

end ConsciousnessPacket

/-- The token count the handler reads back from a freshly constructed
packet is exactly the `_estimate_tokens` estimate. -/
theorem tokenCountOf_init (hash : String → String) (freshId nowIso : String)
    (t : PacketType) (c : List (String × Json)) (pr : PacketPriority)
    (md : Option (List (String × Json))) (cs : Option ConsentDict) :
    tokenCountOf (ConsciousnessPacket.init hash freshId nowIso t c pr md cs) =
      ConsciousnessPacket._estimate_tokens c := by
  rw [tokenCountOf, ConsciousnessPacket.init_meta_token_count]
  simp

/-! ### The enum tags round-trip -/

theorem PacketType.ofString?_value (t : PacketType) :
    PacketType.ofString? t.value = some t := by
  cases t <;> rfl

theorem PacketPriority.ofInt?_value (p : PacketPriority) :
    PacketPriority.ofInt? p.value = some p := by
  cases p <;> rfl

/-! ### `lastN` (Python's `l[-n:]`) -/

theorem lastN_length {α : Type} (n : Nat) (l : List α) :
    (lastN n l).length = min n l.length := by
  simp [lastN]

theorem lastN_of_length_le {α : Type} {n : Nat} {l : List α}
    (h : l.length ≤ n) : lastN n l = l := by
  rw [lastN, List.take_of_length_le (by simpa using h), List.reverse_reverse]

theorem lastN_snoc {α : Type} (n : Nat) (l : List α) (x : α) :
    lastN (n + 1) (l ++ [x]) = lastN n l ++ [x] := by
  simp [lastN, List.reverse_append, List.take_succ_cons]

theorem lastN_lastN {α : Type} (m n : Nat) (l : List α) :
    lastN m (lastN n l) = lastN (min m n) l := by
  simp [lastN, List.take_take]

/-- The append-then-conditionally-slice step shared by `_prune_buffers` and
`_route_packet` keeps a buffer equal to the last `n` elements of the full
history. -/
theorem prune_step {α : Type} (n : Nat) (hn : 1 ≤ n) (l : List α) (x : α) :
    (if n < (lastN n l ++ [x]).length then lastN n (lastN n l ++ [x])
      else lastN n l ++ [x]) = lastN n (l ++ [x]) := by
  obtain ⟨m, rfl⟩ : ∃ m, n = m + 1 := ⟨n - 1, by omega⟩
  by_cases hlen : l.length ≤ m
  · have h1 : lastN (m + 1) l = l := lastN_of_length_le (by omega)
    have h2 : lastN (m + 1) (l ++ [x]) = l ++ [x] :=
      lastN_of_length_le (by simp; omega)
    rw [h1, h2, ite_self]
  · have h1 : (lastN (m + 1) l ++ [x]).length = m + 2 := by
      simp [lastN_length]
      omega
    have h2 : min m (m + 1) = m := by omega
    rw [h1, if_pos (by omega), lastN_snoc, lastN_lastN, h2, lastN_snoc]

/-- Pruning is the identity on a buffer already within its bound. -/
theorem prune_noop {α : Type} {n : Nat} {l : List α} (h : l.length ≤ n) :
    (if n < l.length then lastN n l else l) = l := by
  rw [if_neg (by omega)]

/-! ### The selection comparator is a total preorder -/

theorem lexLe_total : ∀ (a b : List Char), (lexLe a b || lexLe b a) = true := by
  intro a
  induction a with
  | nil => intro b; simp [lexLe]
  | cons x xs ih =>
      intro b
      cases b with
      | nil => simp [lexLe]
      | cons y ys =>
          by_cases h1 : x.toNat < y.toNat
          · simp [lexLe, h1]
          · by_cases h2 : y.toNat < x.toNat
            · simp [lexLe, h1, h2]
            · simp [lexLe, h1, h2, ih ys]

theorem lexLe_trans : ∀ (a b c : List Char), lexLe a b = true →
    lexLe b c = true → lexLe a c = true := by
  intro a
  induction a with
  | nil => intro b c _ _; simp [lexLe]
  | cons x xs ih =>
      intro b c hab hbc
      cases b with
      | nil => simp [lexLe] at hab
      | cons y ys =>
          cases c with
          | nil => simp [lexLe] at hbc
          | cons z zs =>
              simp only [lexLe] at hab hbc ⊢
              by_cases h1 : x.toNat < y.toNat
              · by_cases h2 : y.toNat < z.toNat
                · rw [if_pos (by omega)]
                · rw [if_neg h2] at hbc
                  by_cases h3 : z.toNat < y.toNat
                  · rw [if_pos h3] at hbc
                    exact absurd hbc Bool.false_ne_true
                  · rw [if_pos (by omega)]
              · rw [if_neg h1] at hab
                by_cases h1' : y.toNat < x.toNat
                · rw [if_pos h1'] at hab
                  exact absurd hab Bool.false_ne_true
                · rw [if_neg h1'] at hab
                  by_cases h2 : y.toNat < z.toNat
                  · rw [if_pos (by omega)]
                  · rw [if_neg h2] at hbc
                    by_cases h3 : z.toNat < y.toNat
                    · rw [if_pos h3] at hbc
                      exact absurd hbc Bool.false_ne_true
                    · rw [if_neg h3] at hbc
                      rw [if_neg (by omega), if_neg (by omega)]
                      exact ih ys zs hab hbc

theorem strLe_total (a b : String) : (strLe a b || strLe b a) = true :=
  lexLe_total a.data b.data

theorem strLe_trans {a b c : String} (hab : strLe a b = true)
    (hbc : strLe b c = true) : strLe a c = true :=
  lexLe_trans a.data b.data c.data hab hbc

theorem selLe_trans (a b c : ConsciousnessPacket)
    (hab : PacketHandler.selLe a b = true)
    (hbc : PacketHandler.selLe b c = true) :
    PacketHandler.selLe a c = true := by
  unfold PacketHandler.selLe at hab hbc ⊢
  simp only [Bool.or_eq_true, Bool.and_eq_true, decide_eq_true_eq] at hab hbc ⊢
  rcases hab with h1 | ⟨h1, h1'⟩
  · rcases hbc with h2 | ⟨h2, _⟩
    · exact Or.inl (by omega)
    · exact Or.inl (by omega)
  · rcases hbc with h2 | ⟨h2, h2'⟩
    · exact Or.inl (by omega)
    · exact Or.inr ⟨by omega, strLe_trans h1' h2'⟩

theorem selLe_total (a b : ConsciousnessPacket) :
    (PacketHandler.selLe a b || PacketHandler.selLe b a) = true := by
  unfold PacketHandler.selLe
  simp only [Bool.or_eq_true, Bool.and_eq_true, decide_eq_true_eq]
  by_cases h1 : a.priority.value < b.priority.value
  · exact Or.inl (Or.inl h1)
  · by_cases h2 : b.priority.value < a.priority.value
    · exact Or.inr (Or.inl h2)
    · have h3 : a.priority.value = b.priority.value := by omega
      have h4 := strLe_total (createdOf a) (createdOf b)
      simp only [Bool.or_eq_true] at h4
      rcases h4 with h4 | h4
      · exact Or.inl (Or.inr ⟨h3, h4⟩)
      · exact Or.inr (Or.inr ⟨h3.symm, h4⟩)

/-! ### The structural sort is sorted -/

theorem mem_orderedInsert {α : Type} (le : α → α → Bool) (a x : α)
    (l : List α) : x ∈ orderedInsert le a l ↔ x = a ∨ x ∈ l := by
  induction l with
  | nil => simp [orderedInsert]
  | cons b l ih =>
      by_cases hab : le a b
      · simp [orderedInsert, hab]
      · simp only [orderedInsert, if_neg hab, List.mem_cons, ih]
        tauto

theorem pairwise_orderedInsert {α : Type} (le : α → α → Bool)
    (htrans : ∀ a b c, le a b = true → le b c = true → le a c = true)
    (htotal : ∀ a b, (le a b || le b a) = true) (a : α) (l : List α)
    (hl : l.Pairwise (fun x y => le x y = true)) :
    (orderedInsert le a l).Pairwise (fun x y => le x y = true) := by
  induction l with
  | nil => simp [orderedInsert]
  | cons b l ih =>
      rw [List.pairwise_cons] at hl
      obtain ⟨hb, hl⟩ := hl
      by_cases hab : le a b
      · rw [orderedInsert, if_pos hab]
        refine List.Pairwise.cons ?_ (List.Pairwise.cons hb hl)
        intro x hx
        rcases List.mem_cons.mp hx with rfl | hx
        · exact hab
        · exact htrans a b x hab (hb x hx)
      · rw [orderedInsert, if_neg hab]
        refine List.Pairwise.cons ?_ (ih hl)
        intro x hx
        rcases (mem_orderedInsert le a x l).mp hx with h | hx
        · rw [h]
          have h2 := htotal a b
          simp only [Bool.or_eq_true] at h2
          rcases h2 with h2 | h2
          · exact absurd h2 hab
          · exact h2
        · exact hb x hx

theorem pairwise_insertionSort {α : Type} (le : α → α → Bool)
    (htrans : ∀ a b c, le a b = true → le b c = true → le a c = true)
    (htotal : ∀ a b, (le a b || le b a) = true) (l : List α) :
    (insertionSort le l).Pairwise (fun x y => le x y = true) := by
  induction l with
  | nil => simp [insertionSort]
  | cons a l ih =>
      exact pairwise_orderedInsert le htrans htotal a _ ih

/-! ### The greedy walk picks a budget-respecting subsequence -/

theorem select_loop_sublist (l : List ConsciousnessPacket) (b : Nat) :
    ((PacketHandler.select_loop l b).map Prod.snd).Sublist l := by
  induction l generalizing b with
  | nil => simp [PacketHandler.select_loop]
  | cons p rest ih =>
      rw [PacketHandler.select_loop]
      by_cases h1 : tokenCountOf p ≤ b
      · rw [if_pos h1]
        dsimp only
        by_cases h2 : b - tokenCountOf p < 100
        · rw [if_pos h2]
          simp
        · rw [if_neg h2]
          simpa using List.Sublist.cons₂ p (ih (b - tokenCountOf p))
      · rw [if_neg h1]
        by_cases h2 : b < 100
        · rw [if_pos h2]
          simp
        · rw [if_neg h2]
          exact (ih b).cons p

theorem select_loop_sum (l : List ConsciousnessPacket) (b : Nat) :
    ((PacketHandler.select_loop l b).map (fun tp => tokenCountOf tp.2)).sum ≤ b := by
  induction l generalizing b with
  | nil => simp [PacketHandler.select_loop]
  | cons p rest ih =>
      rw [PacketHandler.select_loop]
      by_cases h1 : tokenCountOf p ≤ b
      · rw [if_pos h1]
        dsimp only
        by_cases h2 : b - tokenCountOf p < 100
        · rw [if_pos h2]
          simp
          omega
        · rw [if_neg h2]
          simp only [List.map_cons, List.sum_cons]
          have h3 := ih (b - tokenCountOf p)
          omega
      · rw [if_neg h1]
        by_cases h2 : b < 100
        · rw [if_pos h2]
          simp
        · rw [if_neg h2]
          exact ih b

/-- The packets selected by `_select_packets_by_priority` are pairwise
ordered by the sort comparator. -/
theorem select_pairwise (pool : List ConsciousnessPacket) (b : Nat) :
    ((PacketHandler._select_packets_by_priority pool b).map Prod.snd).Pairwise
      (fun a b => PacketHandler.selLe a b = true) := by
  have hs := pairwise_insertionSort PacketHandler.selLe selLe_trans
    selLe_total pool
  exact List.Pairwise.sublist
    (select_loop_sublist (insertionSort PacketHandler.selLe pool) b) hs

/-! ### Claim C2 — serialization round trip -/

/-- C2: for every packet `P`, deserializing the serialization of `P` yields a
packet with the same id, type, priority, consent and content, whose
`verify_integrity` returns true. -/
theorem C2_roundtrip (hash : String → String) (freshId nowIso : String)
    (p : ConsciousnessPacket) :
    ∃ q, ConsciousnessPacket.from_dict hash freshId nowIso
        (ConsciousnessPacket.to_dict p) = .ok q ∧
      q.id = p.id ∧ q.type = p.type ∧ q.priority = p.priority ∧
      q.consent = p.consent ∧ q.content = p.content ∧
      ConsciousnessPacket.verify_integrity hash q = true := by
  have ht : (ConsciousnessPacket.to_dict p).type.bind PacketType.ofString? =
      some p.type := by
    simp [ConsciousnessPacket.to_dict, PacketType.ofString?_value]
  have hp : (ConsciousnessPacket.to_dict p).priority.bind PacketPriority.ofInt? =
      some p.priority := by
    simp [ConsciousnessPacket.to_dict, PacketPriority.ofInt?_value]
  rw [ConsciousnessPacket.from_dict, ht, hp]
  refine ⟨_, rfl, rfl, rfl, rfl, rfl, rfl, ?_⟩
  exact ConsciousnessPacket.init_verify hash freshId nowIso p.type
    (ConsciousnessPacket.to_dict p).content p.priority
    (ConsciousnessPacket.to_dict p).metadata
    (ConsciousnessPacket.to_dict p).consent

/-! ### Claim C10 — `from_dict` refreshes the derived metadata -/

/-- C10: a deserialized packet's `created`, `version`, `token_count` and
`checksum` are recomputed at deserialization time from the content,
regardless of the metadata carried on the wire; the id alone is taken from
the input (falling back to the fresh id when absent). -/
theorem C10_from_dict_refreshes_metadata (hash : String → String)
    (freshId nowIso : String) (data : PacketDict) (q : ConsciousnessPacket)
    (h : ConsciousnessPacket.from_dict hash freshId nowIso data = .ok q) :
    dictGet q.metadata "created" = some (.str nowIso) ∧
    dictGet q.metadata "version" = some (.str "2.3.0") ∧
    dictGet q.metadata "token_count" =
      some (.int (ConsciousnessPacket._estimate_tokens data.content)) ∧
    dictGet q.metadata "checksum" =
      some (.str (ConsciousnessPacket._calculate_checksum hash data.content)) ∧
    q.id = data.id.getD freshId := by
  unfold ConsciousnessPacket.from_dict at h
  split at h
  case _ pt pr hpt hpr =>
      simp only [Except.ok.injEq] at h
      subst h
      refine ⟨?_, ?_, ?_, ?_, ?_⟩
      · exact ConsciousnessPacket.init_meta_created hash freshId nowIso pt
          data.content pr data.metadata data.consent
      · exact ConsciousnessPacket.init_meta_version hash freshId nowIso pt
          data.content pr data.metadata data.consent
      · exact ConsciousnessPacket.init_meta_token_count hash freshId nowIso pt
          data.content pr data.metadata data.consent
      · exact ConsciousnessPacket.init_meta_checksum hash freshId nowIso pt
          data.content pr data.metadata data.consent
      · rfl
  case _ => cases h

/-- Witness for C10: deserializing `cw_data` (which carries a stale checksum
`"old"` and a stale `created` of `"OLD"`) yields refreshed metadata and the
preserved id `"pid"`. -/
theorem C10_witness :
    dictGet cw_q.metadata "created" = some (.str "NOW") ∧
    dictGet cw_q.metadata "version" = some (.str "2.3.0") ∧
    dictGet cw_q.metadata "token_count" = some (.int 2) ∧
    dictGet cw_q.metadata "checksum" = some (.str "\x7b\"k\": \"v\"\x7d") ∧
    cw_q.id = "pid" := by
  obtain ⟨h1, h2, h3, h4, h5⟩ :=
    C10_from_dict_refreshes_metadata (fun s => s) "fid" "NOW" cw_data cw_q rfl
  have e3 : ConsciousnessPacket._estimate_tokens cw_data.content = 2 := by decide
  have e4 : ConsciousnessPacket._calculate_checksum (fun s => s) cw_data.content =
      "\x7b\"k\": \"v\"\x7d" := by decide
  rw [e3] at h3
  rw [e4] at h4
  exact ⟨h1, h2, h3, h4, h5⟩

/-! ### Claim C7 — size admission -/

/-- C7: `create_packet` fails (with the size error) exactly when the token
estimate `len(json.dumps(content)) // 4` strictly exceeds
`max_packet_size`; in particular an estimate equal to the limit is
accepted. -/
theorem C7_size_admission (env : Env) (h : PacketHandler) (t : PacketType)
    (c : List (String × Json)) (pr : Option PacketPriority)
    (cs : Option ConsentDict) :
    (PacketHandler.create_packet env h t c pr cs = .error .sizeExceeded ↔
      h.max_packet_size < ConsciousnessPacket._estimate_tokens c) ∧
    ((PacketHandler.create_packet env h t c pr cs).isOk = true ↔
      ConsciousnessPacket._estimate_tokens c ≤ h.max_packet_size) := by
  unfold PacketHandler.create_packet
  dsimp only
  rw [tokenCountOf_init]
  by_cases hgt : h.max_packet_size < ConsciousnessPacket._estimate_tokens c
  · rw [if_pos hgt]
    refine ⟨⟨fun _ => hgt, fun _ => rfl⟩,
      ⟨fun hc => ?_, fun hle => absurd hgt (by omega)⟩⟩
    exact Bool.noConfusion hc
  · rw [if_neg hgt]
    by_cases hct : h.compression_threshold < ConsciousnessPacket._estimate_tokens c
    · rw [if_pos hct]
      exact ⟨⟨fun hc => Except.noConfusion hc, fun hc => absurd hc hgt⟩,
        ⟨fun _ => by omega, fun _ => rfl⟩⟩
    · rw [if_neg hct]
      exact ⟨⟨fun hc => Except.noConfusion hc, fun hc => absurd hc hgt⟩,
        ⟨fun _ => by omega, fun _ => rfl⟩⟩

/-- Witness for C7: with `max_packet_size = 2` the 2-token content
`[("a", null)]` is accepted (estimate equals the limit); with
`max_packet_size = 1` the same content is rejected with the size error. -/
theorem C7_witness :
    (PacketHandler.create_packet env0 (PacketHandler.mkHandler 2 0) .context
      [("a", .null)] none none).isOk = true ∧
    PacketHandler.create_packet env0 (PacketHandler.mkHandler 1 0) .context
      [("a", .null)] none none = .error .sizeExceeded :=
  ⟨(C7_size_admission env0 (PacketHandler.mkHandler 2 0) .context
      [("a", .null)] none none).2.mpr (by decide),
   (C7_size_admission env0 (PacketHandler.mkHandler 1 0) .context
      [("a", .null)] none none).1.mpr (by decide)⟩

/-! ### Claim C9 — expiry semantics -/

/-- C9: `is_expired` is false when `expires_at` is absent or null, false when
it does not parse (fail-open; the hypothesis records that the empty string
never parses as a timestamp, as with `datetime.fromisoformat`), and
otherwise true exactly when the current time is past the expiry. -/
theorem C9_is_expired (parseTs : String → Option Int) (nowT : Int)
    (p : ConsciousnessPacket) (hempty : parseTs "" = none) :
    (p.consent.expires_at = none →
      ConsciousnessPacket.is_expired parseTs nowT p = false) ∧
    (∀ s, p.consent.expires_at = some s → parseTs s = none →
      ConsciousnessPacket.is_expired parseTs nowT p = false) ∧
    (∀ s t, p.consent.expires_at = some s → parseTs s = some t →
      (ConsciousnessPacket.is_expired parseTs nowT p = true ↔ t < nowT)) := by
  refine ⟨?_, ?_, ?_⟩
  · intro hnone
    simp [ConsciousnessPacket.is_expired, hnone]
  · intro s hs hparse
    by_cases he : s = ""
    · simp [ConsciousnessPacket.is_expired, hs, he]
    · simp [ConsciousnessPacket.is_expired, hs, he, hparse]
  · intro s t hs hparse
    by_cases he : s = ""
    · subst he
      rw [hempty] at hparse
      cases hparse
    · simp [ConsciousnessPacket.is_expired, hs, he, hparse]

/-- Witness for C9: under `parseTs0` (where only `"2020"` parses, to instant
50) and a clock at 100, the packet `cw9` expiring at `"2020"` is expired. -/
theorem C9_witness : ConsciousnessPacket.is_expired parseTs0 100 cw9 = true :=
  ((C9_is_expired parseTs0 100 cw9 (by decide)).2.2 "2020" 50 rfl
    (by decide)).mpr (by decide)

/-! ### Claim C5 — failed receives mutate nothing -/

theorem receive_text_some (env : Env) (h : PacketHandler) (s : String)
    (d : PacketDict) (hl : env.loads s = some d) :
    PacketHandler.receive_packet env h (.text s) =
      PacketHandler.receive_packet env h (.dict d) := by
  unfold PacketHandler.receive_packet
  dsimp only
  rw [hl]

theorem receive_dict_failure (env : Env) (h : PacketHandler) (d : PacketDict)
    (e : PErr)
    (hf : (PacketHandler.receive_packet env h (.dict d)).2 = .error e) :
    (PacketHandler.receive_packet env h (.dict d)).1 = h := by
  unfold PacketHandler.receive_packet at hf ⊢
  dsimp only at hf ⊢
  cases hfd : ConsciousnessPacket.from_dict env.hash env.freshId env.nowIso d with
  | error e' => rfl
  | ok packet =>
      rw [hfd] at hf
      dsimp only at hf ⊢
      by_cases hv : ConsciousnessPacket.verify_integrity env.hash packet = false
      · rw [if_pos hv]
      · rw [if_neg hv] at hf ⊢
        by_cases hx : ConsciousnessPacket.is_expired env.parseTs env.nowT packet = true
        · rw [if_pos hx]
        · rw [if_neg hx] at hf
          exact absurd hf (fun hh => Except.noConfusion hh)

/-- C5: whenever `receive_packet` fails — invalid encoding, unsupported
format, malformed header, integrity failure or expired consent — the handler
state (both buffers, the identity layer, session memory and context layers)
is exactly what it was before the call. -/
theorem C5_receive_failure_no_mutation (env : Env) (h : PacketHandler)
    (inp : RecvInput) (e : PErr)
    (hf : (PacketHandler.receive_packet env h inp).2 = .error e) :
    (PacketHandler.receive_packet env h inp).1 = h := by
  cases inp with
  | other => rfl
  | dict d => exact receive_dict_failure env h d e hf
  | text s =>
      cases hl : env.loads s with
      | none =>
          unfold PacketHandler.receive_packet
          dsimp only
          rw [hl]
      | some d =>
          rw [receive_text_some env h s d hl] at hf ⊢
          exact receive_dict_failure env h d e hf

/-- Witness for C5: receiving an unsupported input shape fails and the
handler is returned unchanged. -/
theorem C5_witness :
    (PacketHandler.receive_packet env0 initHandler .other).2 =
      .error .unsupportedFormat ∧
    (PacketHandler.receive_packet env0 initHandler .other).1 = initHandler :=
  ⟨rfl, C5_receive_failure_no_mutation env0 initHandler .other
    .unsupportedFormat rfl⟩

/-! ### Claim C4 — consent evaluation -/

theorem scan_targets_cons (p : ConsciousnessPacket) (recipient : String)
    (scope : Option String) (t : String) (rest : List String) :
    PacketHandler.scan_targets p (pyLower recipient) scope (t :: rest) =
      if target_matches recipient t then PacketHandler.scope_allows p scope
      else PacketHandler.scan_targets p (pyLower recipient) scope rest := by
  rw [PacketHandler.scan_targets]
  unfold target_matches
  dsimp only
  by_cases hc : t.data.contains ':' = true
  · rw [if_pos hc, if_pos hc]
  · rw [if_neg hc, if_neg hc]

theorem scan_targets_eq_find (p : ConsciousnessPacket) (recipient : String)
    (scope : Option String) (ts : List String) :
    PacketHandler.scan_targets p (pyLower recipient) scope ts =
      (match ts.find? (target_matches recipient) with
       | some _ => PacketHandler.scope_allows p scope
       | none => false) := by
  induction ts with
  | nil => rfl
  | cons t rest ih =>
      rw [scan_targets_cons]
      by_cases hm : target_matches recipient t = true
      · rw [if_pos hm, List.find?_cons_of_pos _ hm]
      · rw [if_neg hm, List.find?_cons_of_neg _ (by simpa using hm), ih]

/-- C4 (amended): `can_share_with` is exactly the claim's decision procedure
with one correction — an *empty* scope string behaves like an absent scope
(Python truthiness), both in the public branch and on a target match. -/
theorem C4_can_share_amended (parseTs : String → Option Int) (nowT : Int)
    (p : ConsciousnessPacket) (recipient : String) (scope : Option String) :
    PacketHandler.can_share_with parseTs nowT p recipient scope =
      can_share_amended parseTs nowT p recipient scope := by
  unfold PacketHandler.can_share_with can_share_amended
  by_cases he : ConsciousnessPacket.is_expired parseTs nowT p = true
  · rw [if_pos he, if_pos he]
  · rw [if_neg he, if_neg he]
    dsimp only
    by_cases hp : p.consent.public = true
    · rw [if_pos hp, if_pos hp]
      rfl
    · rw [if_neg hp, if_neg hp]
      rw [scan_targets_eq_find]
      cases List.find? (target_matches recipient) p.consent.targets with
      | none => rfl
      | some t =>
          cases scope with
          | none => rfl
          | some s => rfl

/-- C4 as stated is false on the code at an empty-string scope: with a public
packet whose scopes are `["read"]`, the code grants (`if scope:` treats `""`
as "no scope given") while the claim's scope test refuses (`"" ∉ scopes`). -/
theorem C4_counterexample :
    PacketHandler.can_share_with parseTs0 100 cx4_public "x" (some "") = true ∧
    can_share_spec parseTs0 100 cx4_public "x" (some "") = false := by
  exact ⟨by decide, by decide⟩

/-! ### Claim C8 — compression trigger -/

/-- C8: content whose token estimate lies strictly above
`compression_threshold` and at most `max_packet_size` is accepted, and the
returned packet's content records `compressed: true` together with the
original packet's id, checksum and size, the pre-compression checksum also
being stored under `metadata["original_checksum"]`. -/
theorem C8_compression_trigger (env : Env) (h : PacketHandler)
    (t : PacketType) (c : List (String × Json)) (pr : Option PacketPriority)
    (cs : Option ConsentDict)
    (h1 : h.compression_threshold < ConsciousnessPacket._estimate_tokens c)
    (h2 : ConsciousnessPacket._estimate_tokens c ≤ h.max_packet_size) :
    ∃ q, PacketHandler.create_packet env h t c pr cs = .ok q ∧
      dictGet q.content "compressed" = some (.bool true) ∧
      dictGet q.content "original_id" = some (.str env.freshId) ∧
      dictGet q.content "original_checksum" =
        some (.str (ConsciousnessPacket._calculate_checksum env.hash c)) ∧
      dictGet q.content "original_size" =
        some (.int (ConsciousnessPacket._estimate_tokens c)) ∧
      dictGet q.metadata "original_checksum" =
        some (.str (ConsciousnessPacket._calculate_checksum env.hash c)) := by
  unfold PacketHandler.create_packet
  dsimp only
  rw [tokenCountOf_init, if_neg (by omega), if_pos h1]
  exact ⟨_, rfl, rfl, rfl, rfl, rfl, rfl⟩

/-- Witness for C8: with `compression_threshold = 2` and
`max_packet_size = 1000`, the 3-token content `[("a", "hello")]` is created
compressed, with the original checksum (the canonical serialization itself,
under the identity digest) preserved. -/
theorem C8_witness :
    ∃ q, PacketHandler.create_packet env0 (PacketHandler.mkHandler 1000 2)
        .context cw8_content none none = .ok q ∧
      dictGet q.content "compressed" = some (.bool true) ∧
      dictGet q.content "original_id" = some (.str "cp_1") ∧
      dictGet q.content "original_checksum" =
        some (.str "\x7b\"a\": \"hello\"\x7d") ∧
      dictGet q.content "original_size" = some (.int 3) ∧
      dictGet q.metadata "original_checksum" =
        some (.str "\x7b\"a\": \"hello\"\x7d") := by
  obtain ⟨q, hq, g1, g2, g3, g4, g5⟩ :=
    C8_compression_trigger env0 (PacketHandler.mkHandler 1000 2) .context
      cw8_content none none (by decide) (by decide)
  have e1 : ConsciousnessPacket._calculate_checksum env0.hash cw8_content =
      "\x7b\"a\": \"hello\"\x7d" := by decide
  have e2 : ConsciousnessPacket._estimate_tokens cw8_content = 3 := by decide
  rw [e1] at g3 g5
  rw [e2] at g4
  exact ⟨q, hq, g1, g2, g3, g4, g5⟩

/-! ### Claim C3 — budget and ordering of `reconstruct_context` -/

theorem selLe_keyLe {a b : ConsciousnessPacket}
    (h : PacketHandler.selLe a b = true) : keyLe (selKeyOf a) (selKeyOf b) := by
  unfold PacketHandler.selLe at h
  unfold keyLe selKeyOf
  simp only [Bool.or_eq_true, Bool.and_eq_true, decide_eq_true_eq] at h
  exact h

theorem select_sum_le (pool : List ConsciousnessPacket) (b : Nat) :
    ((PacketHandler._select_packets_by_priority pool b).map
      (fun tp => tokenCountOf tp.2)).sum ≤ b := by
  unfold PacketHandler._select_packets_by_priority
  exact select_loop_sum _ b

/-- The reconstructed layers are exactly the contents and token counts of
`reconstruct_context_packets`, in the same order. -/
theorem reconstruct_layers_eq (h : PacketHandler) (nowIso : String)
    (B : Nat) (inc : Bool) :
    (PacketHandler.reconstruct_context h nowIso B inc).layers.map
        (fun l => (l.content, l.tokens)) =
      (reconstruct_context_packets h B inc).map
        (fun p => (p.content, tokenCountOf p)) := by
  unfold PacketHandler.reconstruct_context reconstruct_context_packets
  dsimp only
  cases inc with
  | false => simp [List.map_map]
  | true =>
      cases h.identity_layer with
      | none => simp [List.map_map]
      | some idp =>
          dsimp only
          by_cases hfit : tokenCountOf idp ≤ B
          · rw [if_pos hfit, if_pos hfit]
            simp [List.map_map]
          · rw [if_neg hfit, if_neg hfit]
            simp [List.map_map]

/-- C3 (amended): the reconstructed layers' token counts sum to at most the
budget, and the layers drawn from the session/context pool appear in
non-decreasing `(priority, created)` order; the identity layer, when
included, is placed first regardless of its own priority (receive routes by
type only, so its priority is unconstrained). -/
theorem C3_amended_budget_and_order (h : PacketHandler) (nowIso : String)
    (B : Nat) (inc : Bool) (pool : List ConsciousnessPacket) (r : Nat) :
    (((PacketHandler.reconstruct_context h nowIso B inc).layers.map
        ContextLayer.tokens).sum ≤ B) ∧
    List.Pairwise keyLe
      (((PacketHandler._select_packets_by_priority pool r).map Prod.snd).map
        selKeyOf) := by
  constructor
  · unfold PacketHandler.reconstruct_context
    dsimp only
    cases inc with
    | false =>
        simp only [List.nil_append, List.map_map]
        exact select_sum_le _ B
    | true =>
        cases h.identity_layer with
        | none =>
            simp only [List.nil_append, List.map_map]
            exact select_sum_le _ B
        | some idp =>
            dsimp only
            by_cases hfit : tokenCountOf idp ≤ B
            · rw [if_pos hfit]
              simp only [List.map_append, List.sum_append, List.map_map]
              have heq : List.map
                  (ContextLayer.tokens ∘ fun tp =>
                    ({ type := tp.1, content := tp.2.content,
                       tokens := tokenCountOf tp.2 } : ContextLayer))
                  (PacketHandler._select_packets_by_priority
                    (h.session_memory ++ h.context_layers)
                    (B - tokenCountOf idp)) =
                List.map (fun tp => tokenCountOf tp.2)
                  (PacketHandler._select_packets_by_priority
                    (h.session_memory ++ h.context_layers)
                    (B - tokenCountOf idp)) := rfl
              rw [heq]
              have hsel := select_sum_le
                (h.session_memory ++ h.context_layers) (B - tokenCountOf idp)
              simp only [List.map_cons, List.map_nil, List.sum_cons,
                List.sum_nil]
              omega
            · rw [if_neg hfit]
              simp only [List.nil_append, List.map_map]
              exact select_sum_le _ B
  · refine List.Pairwise.map selKeyOf (fun a b hab => selLe_keyLe hab) ?_
    exact select_pairwise pool r

/-- C3 as stated fails on the code: in `cx3_handler` the identity layer has
priority LOW (4) while the session tier holds a CRITICAL (1) packet, and
`reconstruct_context` places the identity layer first, so the returned
layers are not in non-decreasing priority order. -/
theorem C3_counterexample : ¬ C3Claim cx3_handler "TS" 1000 := by
  unfold C3Claim
  intro hclaim
  exact absurd hclaim.2 (by decide)

/-! ### Claim C6 — buffer and tier bounds under arbitrary call sequences -/

theorem receive_eq_validate (env : Env) (h : PacketHandler)
    (input : RecvInput) :
    PacketHandler.receive_packet env h input =
      (match validate_packet env input with
       | .error e => (h, .error e)
       | .ok packet =>
           (PacketHandler._route_packet (PacketHandler._prune_buffers
             { h with incoming_buffer := h.incoming_buffer ++ [packet] })
             packet, .ok packet)) := by
  cases input with
  | other => rfl
  | dict d =>
      unfold PacketHandler.receive_packet validate_packet
      dsimp only
      cases ConsciousnessPacket.from_dict env.hash env.freshId env.nowIso d with
      | error e => rfl
      | ok packet =>
          dsimp only
          by_cases hv : ConsciousnessPacket.verify_integrity env.hash packet = false
          · rw [if_pos hv, if_pos hv]
          · rw [if_neg hv, if_neg hv]
            by_cases hx : ConsciousnessPacket.is_expired env.parseTs env.nowT packet = true
            · rw [if_pos hx, if_pos hx]
            · rw [if_neg hx, if_neg hx]
  | text s =>
      unfold PacketHandler.receive_packet validate_packet
      dsimp only
      cases env.loads s with
      | none => rfl
      | some d =>
          dsimp only
          cases ConsciousnessPacket.from_dict env.hash env.freshId env.nowIso d with
          | error e => rfl
          | ok packet =>
              dsimp only
              by_cases hv : ConsciousnessPacket.verify_integrity env.hash packet = false
              · rw [if_pos hv, if_pos hv]
              · rw [if_neg hv, if_neg hv]
                by_cases hx : ConsciousnessPacket.is_expired env.parseTs env.nowT packet = true
                · rw [if_pos hx, if_pos hx]
                · rw [if_neg hx, if_neg hx]

theorem route_incoming (h : PacketHandler) (p : ConsciousnessPacket) :
    (PacketHandler._route_packet h p).incoming_buffer = h.incoming_buffer := by
  unfold PacketHandler._route_packet
  split_ifs <;> rfl

theorem route_outgoing (h : PacketHandler) (p : ConsciousnessPacket) :
    (PacketHandler._route_packet h p).outgoing_buffer = h.outgoing_buffer := by
  unfold PacketHandler._route_packet
  split_ifs <;> rfl

theorem route_session (h : PacketHandler) (p : ConsciousnessPacket) :
    (PacketHandler._route_packet h p).session_memory =
      if p.type = .session then
        (if 10 < (h.session_memory ++ [p]).length then
          lastN 10 (h.session_memory ++ [p]) else h.session_memory ++ [p])
      else h.session_memory := by
  unfold PacketHandler._route_packet
  by_cases h1 : p.type = .identity
  · rw [if_pos h1, if_neg (by rw [h1]; decide)]
  · rw [if_neg h1]
    by_cases h2 : p.type = .session
    · rw [if_pos h2, if_pos h2]
    · rw [if_neg h2, if_neg h2]
      by_cases h3 : p.type = .context
      · rw [if_pos h3]
      · rw [if_neg h3]

theorem route_context (h : PacketHandler) (p : ConsciousnessPacket) :
    (PacketHandler._route_packet h p).context_layers =
      if p.type = .context then
        (if 20 < (h.context_layers ++ [p]).length then
          lastN 20 (h.context_layers ++ [p]) else h.context_layers ++ [p])
      else h.context_layers := by
  unfold PacketHandler._route_packet
  by_cases h1 : p.type = .identity
  · rw [if_pos h1, if_neg (by rw [h1]; decide)]
  · rw [if_neg h1]
    by_cases h2 : p.type = .session
    · rw [if_pos h2, if_neg (by rw [h2]; decide)]
    · rw [if_neg h2]
      by_cases h3 : p.type = .context
      · rw [if_pos h3, if_pos h3]
      · rw [if_neg h3, if_neg h3]

theorem route_identity (h : PacketHandler) (p : ConsciousnessPacket) :
    (PacketHandler._route_packet h p).identity_layer =
      if p.type = .identity then some p else h.identity_layer := by
  unfold PacketHandler._route_packet
  by_cases h1 : p.type = .identity
  · rw [if_pos h1, if_pos h1]
  · rw [if_neg h1, if_neg h1]
    by_cases h2 : p.type = .session
    · rw [if_pos h2]
    · rw [if_neg h2]
      by_cases h3 : p.type = .context
      · rw [if_pos h3]
      · rw [if_neg h3]

theorem BuffersSpec_recv (env : Env) (input : RecvInput) (h : PacketHandler)
    (rcv emt : List ConsciousnessPacket) (hs : BuffersSpec h rcv emt) :
    BuffersSpec (PacketHandler.receive_packet env h input).1
      (rcv ++ (validate_packet env input).toOption.toList) emt := by
  obtain ⟨h1, h2, h3, h4, h5⟩ := hs
  rw [receive_eq_validate]
  cases validate_packet env input with
  | error e =>
      dsimp only [Except.toOption, Option.toList]
      rw [List.append_nil]
      exact ⟨h1, h2, h3, h4, h5⟩
  | ok p =>
      dsimp only [Except.toOption, Option.toList]
      refine ⟨?_, ?_, ?_, ?_, ?_⟩
      · rw [route_incoming]
        have e1 : (PacketHandler._prune_buffers
            { h with incoming_buffer := h.incoming_buffer ++ [p] }).incoming_buffer =
            if 200 < (h.incoming_buffer ++ [p]).length then
              lastN 200 (h.incoming_buffer ++ [p])
            else h.incoming_buffer ++ [p] := rfl
        rw [e1, h1]
        exact prune_step 200 (by omega) rcv p
      · rw [route_outgoing]
        have e2 : (PacketHandler._prune_buffers
            { h with incoming_buffer := h.incoming_buffer ++ [p] }).outgoing_buffer =
            if 200 < h.outgoing_buffer.length then
              lastN 200 h.outgoing_buffer
            else h.outgoing_buffer := rfl
        rw [e2, h2]
        exact prune_noop (by rw [lastN_length]; omega)
      · rw [route_session]
        have e3 : (PacketHandler._prune_buffers
            { h with incoming_buffer := h.incoming_buffer ++ [p] }).session_memory =
            h.session_memory := rfl
        rw [e3, h3]
        by_cases hpt : p.type = .session
        · rw [if_pos hpt]
          have ef : (rcv ++ [p]).filter (fun q => decide (q.type = .session)) =
              rcv.filter (fun q => decide (q.type = .session)) ++ [p] := by
            simp [List.filter_append, hpt]
          rw [ef]
          exact prune_step 10 (by omega) _ p
        · rw [if_neg hpt]
          have ef : (rcv ++ [p]).filter (fun q => decide (q.type = .session)) =
              rcv.filter (fun q => decide (q.type = .session)) := by
            simp [List.filter_append, hpt]
          rw [ef]
      · rw [route_context]
        have e4 : (PacketHandler._prune_buffers
            { h with incoming_buffer := h.incoming_buffer ++ [p] }).context_layers =
            h.context_layers := rfl
        rw [e4, h4]
        by_cases hpt : p.type = .context
        · rw [if_pos hpt]
          have ef : (rcv ++ [p]).filter (fun q => decide (q.type = .context)) =
              rcv.filter (fun q => decide (q.type = .context)) ++ [p] := by
            simp [List.filter_append, hpt]
          rw [ef]
          exact prune_step 20 (by omega) _ p
        · rw [if_neg hpt]
          have ef : (rcv ++ [p]).filter (fun q => decide (q.type = .context)) =
              rcv.filter (fun q => decide (q.type = .context)) := by
            simp [List.filter_append, hpt]
          rw [ef]
      · rw [route_identity]
        have e5 : (PacketHandler._prune_buffers
            { h with incoming_buffer := h.incoming_buffer ++ [p] }).identity_layer =
            h.identity_layer := rfl
        rw [e5, h5]
        by_cases hpt : p.type = .identity
        · rw [if_pos hpt]
          have ef : (rcv ++ [p]).filter (fun q => decide (q.type = .identity)) =
              rcv.filter (fun q => decide (q.type = .identity)) ++ [p] := by
            simp [List.filter_append, hpt]
          rw [ef, List.getLast?_concat]
        · rw [if_neg hpt]
          have ef : (rcv ++ [p]).filter (fun q => decide (q.type = .identity)) =
              rcv.filter (fun q => decide (q.type = .identity)) := by
            simp [List.filter_append, hpt]
          rw [ef]

theorem BuffersSpec_emit (p : ConsciousnessPacket) (h : PacketHandler)
    (rcv emt : List ConsciousnessPacket) (hs : BuffersSpec h rcv emt) :
    BuffersSpec (PacketHandler.emit_packet h p) rcv (emt ++ [p]) := by
  obtain ⟨h1, h2, h3, h4, h5⟩ := hs
  refine ⟨?_, ?_, ?_, ?_, ?_⟩
  · have e1 : (PacketHandler.emit_packet h p).incoming_buffer =
        if 200 < h.incoming_buffer.length then lastN 200 h.incoming_buffer
        else h.incoming_buffer := rfl
    rw [e1, h1]
    exact prune_noop (by rw [lastN_length]; omega)
  · have e2 : (PacketHandler.emit_packet h p).outgoing_buffer =
        if 200 < (h.outgoing_buffer ++ [p]).length then
          lastN 200 (h.outgoing_buffer ++ [p])
        else h.outgoing_buffer ++ [p] := rfl
    rw [e2, h2]
    exact prune_step 200 (by omega) emt p
  · have e3 : (PacketHandler.emit_packet h p).session_memory =
        h.session_memory := rfl
    rw [e3]
    exact h3
  · have e4 : (PacketHandler.emit_packet h p).context_layers =
        h.context_layers := rfl
    rw [e4]
    exact h4
  · have e5 : (PacketHandler.emit_packet h p).identity_layer =
        h.identity_layer := rfl
    rw [e5]
    exact h5

theorem run_BuffersSpec (ops : List Op) : ∀ (h : PacketHandler)
    (rcv emt : List ConsciousnessPacket), BuffersSpec h rcv emt →
    BuffersSpec (run h ops) (rcv ++ receivedOf ops) (emt ++ emittedOf ops) := by
  induction ops with
  | nil =>
      intro h rcv emt hs
      simpa [run, receivedOf, emittedOf] using hs
  | cons op ops ih =>
      intro h rcv emt hs
      cases op with
      | recv env input =>
          have hstep := BuffersSpec_recv env input h rcv emt hs
          have hrun := ih _ _ _ hstep
          have e1 : run h (.recv env input :: ops) =
              run (PacketHandler.receive_packet env h input).1 ops := rfl
          have e2 : receivedOf (.recv env input :: ops) =
              (validate_packet env input).toOption.toList ++ receivedOf ops := by
            unfold receivedOf
            rw [List.filterMap_cons]
            dsimp only
            cases validate_packet env input <;> rfl
          have e3 : emittedOf (.recv env input :: ops) = emittedOf ops := rfl
          rw [e1, e2, e3, ← List.append_assoc]
          exact hrun
      | emit p =>
          have hstep := BuffersSpec_emit p h rcv emt hs
          have hrun := ih _ _ _ hstep
          have e1 : run h (.emit p :: ops) =
              run (PacketHandler.emit_packet h p) ops := rfl
          have e2 : receivedOf (.emit p :: ops) = receivedOf ops := rfl
          have e3 : emittedOf (.emit p :: ops) = p :: emittedOf ops := rfl
          rw [e1, e2, e3]
          have e4 : emt ++ p :: emittedOf ops = (emt ++ [p]) ++ emittedOf ops := by
            simp
          rw [e4]
          exact hrun

/-- C6: after every sequence of receive and emit calls on a fresh handler,
each buffer holds at most 200 packets and consists exactly of the most
recently received (resp. emitted) ones; session memory is the last 10
received SESSION packets, the context tier the last 20 received CONTEXT
packets, and the identity layer the last received IDENTITY packet (at most
one — last write wins). -/
theorem C6_buffer_bounds (ops : List Op) :
    (run initHandler ops).incoming_buffer.length ≤ 200 ∧
    (run initHandler ops).incoming_buffer = lastN 200 (receivedOf ops) ∧
    (run initHandler ops).outgoing_buffer.length ≤ 200 ∧
    (run initHandler ops).outgoing_buffer = lastN 200 (emittedOf ops) ∧
    (run initHandler ops).session_memory.length ≤ 10 ∧
    (run initHandler ops).session_memory =
      lastN 10 ((receivedOf ops).filter (fun p => decide (p.type = .session))) ∧
    (run initHandler ops).context_layers.length ≤ 20 ∧
    (run initHandler ops).context_layers =
      lastN 20 ((receivedOf ops).filter (fun p => decide (p.type = .context))) ∧
    (run initHandler ops).identity_layer =
      ((receivedOf ops).filter (fun p => decide (p.type = .identity))).getLast? := by
  have h0 : BuffersSpec initHandler [] [] := ⟨rfl, rfl, rfl, rfl, rfl⟩
  have hrun := run_BuffersSpec ops initHandler [] [] h0
  simp only [List.nil_append] at hrun
  obtain ⟨h1, h2, h3, h4, h5⟩ := hrun
  refine ⟨?_, h1, ?_, h2, ?_, h3, ?_, h4, h5⟩
  · rw [h1, lastN_length]
    omega
  · rw [h2, lastN_length]
    omega
  · rw [h3, lastN_length]
    omega
  · rw [h4, lastN_length]
    omega

/-! ### Claim C1 — integrity rejection at receive (code-bug evidence) -/

/-- C1 fails on the code: `cx1_dict` stores checksum `"tampered"`, which is
not the digest of its content, yet `receive_packet` accepts it, buffers it
and routes it into the context tier — the constructor call inside
`from_dict` overwrites the stored checksum with a freshly recomputed one, so
`verify_integrity` always passes and the `IntegrityError` raise is
unreachable. -/
theorem C1_tampered_packet_accepted :
    ConsciousnessPacket._calculate_checksum env0.hash [("x", .null)] ≠
      "tampered" ∧
    (PacketHandler.receive_packet env0 initHandler (.dict cx1_dict)).2.isOk =
      true ∧
    ((PacketHandler.receive_packet env0 initHandler
      (.dict cx1_dict)).1.incoming_buffer.map ConsciousnessPacket.id) =
      ["evil"] ∧
    ((PacketHandler.receive_packet env0 initHandler
      (.dict cx1_dict)).1.context_layers.map ConsciousnessPacket.id) =
      ["evil"] := by
  exact ⟨by decide, by decide, by decide, by decide⟩

end PyTTAI
